import Mathlib

/-!
Shallow embedding of the family-tree backend (`src/main.py`).

Documents in the MongoDB collections are modelled as association lists from
field names to BSON-like values (strings, booleans, ObjectIds), keeping the
Python dict semantics: lookup returns the first binding, assignment replaces
an existing binding in place or appends a new one, deletion removes the
binding.  A collection is a list of documents; `find`/`update_one`/
`delete_one` scan in order, acting on the first match, exactly as the single
MongoDB server would on an unindexed collection.

Each HTTP handler from `src/main.py` becomes a Lean function from its request
data (and the relevant collection states) to a result plus the updated
collection states.  A raised `HTTPException(code, detail)` is the result
`HResult.httpError code detail`; a handler that would crash with a `KeyError`
(a 500 with no useful body) is modelled with `Option`.  External
collaborators (the Cloudinary upload, the generated ObjectId of an insert)
enter as explicit parameters.
-/

namespace FamilyTree

/-- BSON-like values stored in documents: strings, booleans and ObjectIds
(the latter carried as their 24-character hex rendering). -/
inductive BVal where
  | vStr (s : String)
  | vBool (b : Bool)
  | vOid (hex : String)
deriving DecidableEq, Repr

/-- A document: an association list from field names to values, with the
Python dict insertion-order semantics. -/
abbrev Doc := List (String × BVal)

/-- A collection: a list of documents in insertion order. -/
abbrev Store := List Doc

/-- `d[k]` lookup: the value of the first binding of `k`, if any
(Python `dict.get`). -/
def getField (d : Doc) (k : String) : Option BVal :=
  match d with
  | [] => none
  | (k2, v) :: rest => if k2 = k then some v else getField rest k

/-- `d[k] = v`: replace the value of an existing binding of `k` in place,
or append a new binding (Python dict assignment). -/
def setField (d : Doc) (k : String) (v : BVal) : Doc :=
  match d with
  | [] => [(k, v)]
  | (k2, v2) :: rest => if k2 = k then (k2, v) :: rest else (k2, v2) :: setField rest k v

/-- `del d[k]`: remove every binding of `k` (Python `del` on a dict with
unique keys). -/
def delField (d : Doc) (k : String) : Doc :=
  match d with
  | [] => []
  | (k2, v2) :: rest => if k2 = k then delField rest k else (k2, v2) :: delField rest k

/-- Python `str()` on a stored value: strings and ObjectId hex render as
themselves, booleans as `True`/`False`. -/
def pyStr (v : BVal) : String :=
  match v with
  | .vStr s => s
  | .vBool b => if b then "True" else "False"
  | .vOid h => h

/-- Hexadecimal digit test (`0-9`, `a-f`, `A-F`). -/
def isHexChar (c : Char) : Bool :=
  c.isDigit || (97 ≤ c.toNat && c.toNat ≤ 102) || (65 ≤ c.toNat && c.toNat ≤ 70)

/-- `bson.objectid.ObjectId(s)`: accepts exactly the 24-character hex strings
(case-insensitive) and normalises them to lower case; anything else raises
`InvalidId`, modelled as `none`. -/
def parseObjectId (s : String) : Option String :=
  if s.data.length == 24 && s.data.all isHexChar then
    some (String.mk (s.data.map Char.toLower))
  else
    none

/-- The observable outcome of a message-returning handler: a success body
(identified by its `message` field) or a raised `HTTPException`. -/
inductive HResult where
  | ok (message : String)
  | httpError (status : Nat) (detail : String)
deriving DecidableEq, Repr

/-- The multipart form fields of `POST /register` (all required). -/
structure RegisterForm where
  fullName : String
  gender : String
  memberType : String
  phone : String
  password : String
  mainFamily : String
  subFamily : String
  parent : String
  pincode : String
  address : String
  jobType : String
  jobDetails : String
  talent : String
deriving DecidableEq, Repr

/-- The optional uploaded file, reduced to the attribute the handler
inspects. -/
structure UploadFileT where
  filename : String
deriving DecidableEq, Repr

/-- Outcome of the `cloudinary.uploader.upload` call: an exception, or a
response whose `secure_url` is the given string. -/
inductive UploadOutcome where
  | fail
  | done (secureUrl : String)
deriving DecidableEq, Repr

/-- The default placeholder avatar URL from `register_user`. -/
def placeholderUrl : String := "https://via.placeholder.com/150"

/-- The `new_user` document assembled by `register_user`, with the `_id` the
store generates on insert. -/
def newUserDoc (f : RegisterForm) (photoUrl freshId : String) : Doc :=
  [("name", .vStr f.fullName), ("gender", .vStr f.gender),
   ("memberType", .vStr f.memberType), ("phone", .vStr f.phone),
   ("password", .vStr f.password), ("mainFamily", .vStr f.mainFamily),
   ("subFamily", .vStr f.subFamily), ("parent", .vStr f.parent),
   ("pincode", .vStr f.pincode), ("address", .vStr f.address),
   ("jobType", .vStr f.jobType), ("jobDetails", .vStr f.jobDetails),
   ("talent", .vStr f.talent), ("photo", .vStr photoUrl),
   ("status", .vStr "Pending"), ("isAdmin", .vBool false),
   ("_id", .vOid freshId)]

/-- `POST /register`.  `freshId` is the ObjectId hex the store generates for
the insert; `upload` is the outcome of the Cloudinary call should it be
made. -/
def register_user (f : RegisterForm) (photo : Option UploadFileT)
    (upload : UploadOutcome) (freshId : String) (st : Store) : HResult × Store :=
  if (st.find? (fun d => decide (getField d "phone" = some (.vStr f.phone)))).isSome then
    (.httpError 400 "Phone already registered", st)
  else
    let photoStep : Except Unit String :=
      match photo with
      | some ph =>
          if ph.filename = "" then .ok placeholderUrl
          else
            match upload with
            | .fail => .error ()
            | .done url => .ok url
      | none => .ok placeholderUrl
    match photoStep with
    | .error _ => (.httpError 500 "Image upload failed", st)
    | .ok photoUrl =>
        (.ok "Registration Request Sent!", st ++ [newUserDoc f photoUrl freshId])

/-- The body of the `GET /admin/pending` loop: `user["id"] = str(user["_id"])`
followed by `del user["_id"]`; a document without `_id` raises `KeyError`. -/
def pendTransform (user : Doc) : Option Doc :=
  match getField user "_id" with
  | none => none
  | some v => some (delField (setField user "id" (.vStr (pyStr v))) "_id")

/-- The result-building loop of the list handlers: apply `f` to each document
in order, aborting the whole request if any application raises. -/
def mapDocs (f : Doc → Option Doc) : Store → Option (List Doc)
  | [] => some []
  | d :: rest =>
    match f d, mapDocs f rest with
    | some r, some rs => some (r :: rs)
    | _, _ => none

/-- `GET /admin/pending`: every document with `status = "Pending"`, each with
its ObjectId stripped and re-exposed as the string field `id`. -/
def get_pending (st : Store) : Option (List Doc) :=
  mapDocs pendTransform
    (st.filter (fun d => decide (getField d "status" = some (.vStr "Pending"))))

/-- The projection built for each user inside `GET /tree`; direct indexing
(`user["name"]`, …) raises `KeyError` on a missing field, `user.get`
substitutes the written default. -/
def treeProject (user : Doc) : Option Doc :=
  match getField user "_id", getField user "name", getField user "photo",
        getField user "mainFamily", getField user "parent" with
  | some idv, some namev, some photov, some mainFamilyv, some parentv =>
    some [("_id", .vStr (pyStr idv)),
        ("name", namev),
        ("gender", (getField user "gender").getD (.vStr "N/A")),
        ("memberType", (getField user "memberType").getD (.vStr "Blood_Relative")),
        ("photo", photov),
        ("phone", (getField user "phone").getD (.vStr "")),
        ("mainFamily", mainFamilyv),
        ("subFamily", (getField user "subFamily").getD (.vStr "")),
        ("parent", parentv),
        ("jobType", (getField user "jobType").getD (.vStr "N/A")),
        ("jobDetails", (getField user "jobDetails").getD (.vStr "N/A")),
        ("talent", (getField user "talent").getD (.vStr "N/A"))]
  | _, _, _, _, _ => none

/-- `GET /tree`: every document with `status = "Approved"`, projected. -/
def get_tree (st : Store) : Option (List Doc) :=
  mapDocs treeProject
    (st.filter (fun d => decide (getField d "status" = some (.vStr "Approved"))))

/-- `update_one({"_id": oid}, {"$set": {"status": "Approved"}})` on the users
collection: set the field on the first document whose `_id` is the ObjectId
`oid`, returning `modified_count` (0 when nothing matched or the matched
document already had the value). -/
def updateStatusApproved (oid : String) (st : Store) : Nat × Store :=
  match st with
  | [] => (0, [])
  | d :: rest =>
    if getField d "_id" = some (.vOid oid) then
      let d2 := setField d "status" (.vStr "Approved")
      if d2 = d then (0, d :: rest) else (1, d2 :: rest)
    else
      let r := updateStatusApproved oid rest
      (r.1, d :: r.2)

/-- `delete_one`: remove the first document satisfying `p`, returning
`deleted_count`. -/
def deleteFirstMatch (p : Doc → Bool) (st : Store) : Nat × Store :=
  match st with
  | [] => (0, [])
  | d :: rest =>
    if p d then (1, rest)
    else
      let r := deleteFirstMatch p rest
      (r.1, d :: r.2)

/-- `update_one` without upsert: rewrite the first document satisfying `p`
with `f`, leaving everything else untouched. -/
def updateFirstMatch (p : Doc → Bool) (f : Doc → Doc) (st : Store) : Store :=
  match st with
  | [] => []
  | d :: rest => if p d then f d :: rest else d :: updateFirstMatch p f rest

/-- `PUT /admin/approve/{user_id}`.  Note that in the source the
`HTTPException(404, "User not found")` raised on `modified_count != 1` is
itself inside the `try` block, so the blanket `except Exception` catches it
and replaces it with `HTTPException(400, "Invalid ID")`: the observable
response in the zero-modified case is the 400, never the 404. -/
def approve_user (userId : String) (st : Store) : HResult × Store :=
  match parseObjectId userId with
  | none => (.httpError 400 "Invalid ID", st)
  | some oid =>
    let r := updateStatusApproved oid st
    if r.1 = 1 then (.ok "User Approved", r.2)
    else (.httpError 400 "Invalid ID", r.2)

/-- `DELETE /admin/reject/{user_id}`.  The same `try`/`except` shape as
`approve_user`: the 404 raised on `deleted_count != 1` is swallowed by the
generic handler and surfaces as the 400. -/
def reject_user (userId : String) (st : Store) : HResult × Store :=
  match parseObjectId userId with
  | none => (.httpError 400 "Invalid ID", st)
  | some oid =>
    let r := deleteFirstMatch (fun d => decide (getField d "_id" = some (.vOid oid))) st
    if r.1 = 1 then (.ok "User Rejected", r.2)
    else (.httpError 400 "Invalid ID", r.2)

/-- The hardcoded admin username from `login`. -/
def adminUsername : String := "KTMTFAMILY WEBSITE"

/-- The hardcoded default admin password. -/
def defaultAdminPassword : String := "KTMTPASSWORD"

/-- `db.settings.find_one({"type": "admin_credentials"})`. -/
def findAdminSettings (settings : Store) : Option Doc :=
  settings.find? (fun d => decide (getField d "type" = some (.vStr "admin_credentials")))

/-- The effective admin password `login` compares against: the settings
document's `password` value when that document exists (falling back to the
hardcoded default when the field is missing), the hardcoded default
otherwise. -/
def storedAdminPassword (settings : Store) : BVal :=
  match findAdminSettings settings with
  | some doc => (getField doc "password").getD (.vStr defaultAdminPassword)
  | none => .vStr defaultAdminPassword

/-- `POST /login`: exact equality against the hardcoded username and the
effective password (a Python `==` between the submitted string and whatever
value is stored). -/
def login (username password : String) (settings : Store) : HResult :=
  if username = adminUsername ∧ BVal.vStr password = storedAdminPassword settings then
    .ok "Login successful"
  else
    .httpError 401 "Invalid username or password"

/-- The upsert of `PUT /admin/change-password`: `$set` `password` and `type`
on the first `admin_credentials` document, or insert a fresh document built
from the filter and the `$set` when none matches. -/
def upsertAdminPassword (newPassword : String) (settings : Store) : Store :=
  match settings with
  | [] => [[("type", .vStr "admin_credentials"), ("password", .vStr newPassword)]]
  | d :: rest =>
    if getField d "type" = some (.vStr "admin_credentials") then
      setField (setField d "password" (.vStr newPassword)) "type" (.vStr "admin_credentials") :: rest
    else
      d :: upsertAdminPassword newPassword rest

/-- `PUT /admin/change-password`: unconditional upsert, fixed success
message. -/
def change_password (newPassword : String) (settings : Store) : HResult × Store :=
  (.ok "Password updated successfully", upsertAdminPassword newPassword settings)

/-- The JSON body of the event routes (`registration_link` defaults to the
empty string when omitted). -/
structure EventModel where
  title : String
  description : String
  date : String
  location : String
  image_url : String
  registration_link : String
deriving DecidableEq, Repr

/-- `{"$set": event.model_dump()}` applied to an event document. -/
def eventSetFields (e : EventModel) (d : Doc) : Doc :=
  setField (setField (setField (setField (setField (setField d
    "title" (.vStr e.title))
    "description" (.vStr e.description))
    "date" (.vStr e.date))
    "location" (.vStr e.location))
    "image_url" (.vStr e.image_url))
    "registration_link" (.vStr e.registration_link)

/-- The filter `{"id": event_id}` used by the event update and delete. -/
def eventIdMatches (eventId : String) (d : Doc) : Bool :=
  decide (getField d "id" = some (.vStr eventId))

/-- `PUT /admin/events/{event_id}`: `update_one` on the first matching event
document, generic success message regardless of whether anything matched. -/
def update_event (eventId : String) (e : EventModel) (events : Store) : HResult × Store :=
  (.ok "Event updated successfully",
   updateFirstMatch (eventIdMatches eventId) (eventSetFields e) events)

/-- `DELETE /admin/events/{event_id}`: `delete_one` on the first matching
event document, generic success message regardless. -/
def delete_event (eventId : String) (events : Store) : HResult × Store :=
  (.ok "Event deleted successfully",
   (deleteFirstMatch (eventIdMatches eventId) events).2)

/-! ### Generic lemmas about documents and collection scans -/

/-- Reading back the field just written. -/
theorem getField_setField_self (d : Doc) (k : String) (v : BVal) :
    getField (setField d k v) k = some v := by
  induction d with
  | nil => simp [setField, getField]
  | cons p rest ih =>
    obtain ⟨k2, v2⟩ := p
    by_cases h : k2 = k
    · simp [setField, getField, h]
    · simp [setField, getField, h, ih]

/-- Writing one field leaves every other field unchanged. -/
theorem getField_setField_ne (d : Doc) (k k2 : String) (v : BVal) (h : k ≠ k2) :
    getField (setField d k v) k2 = getField d k2 := by
  induction d with
  | nil => simp [setField, getField, h]
  | cons p rest ih =>
    obtain ⟨k3, v3⟩ := p
    by_cases h3 : k3 = k
    · subst h3
      simp [setField, getField, h]
    · simp [setField, getField, h3, ih]

/-- A deleted field is gone. -/
theorem getField_delField_self (d : Doc) (k : String) :
    getField (delField d k) k = none := by
  induction d with
  | nil => rfl
  | cons p rest ih =>
    obtain ⟨k2, v2⟩ := p
    by_cases h : k2 = k
    · simp [delField, h, ih]
    · simp [delField, getField, h, ih]

/-- Deleting one field leaves every other field unchanged. -/
theorem getField_delField_ne (d : Doc) (k k2 : String) (h : k ≠ k2) :
    getField (delField d k) k2 = getField d k2 := by
  induction d with
  | nil => rfl
  | cons p rest ih =>
    obtain ⟨k3, v3⟩ := p
    by_cases h3 : k3 = k
    · subst h3
      simp [delField, getField, h, ih]
    · simp [delField, getField, h3, ih]

/-- Every document in a successful `mapDocs` result comes from a source
document. -/
theorem mapDocs_mem_of_mem_result (f : Doc → Option Doc) (l : Store) (out : List Doc)
    (h : mapDocs f l = some out) : ∀ r ∈ out, ∃ x ∈ l, f x = some r := by
  induction l generalizing out with
  | nil =>
    simp [mapDocs] at h
    subst h
    simp
  | cons d rest ih =>
    intro r hr
    unfold mapDocs at h
    cases hf : f d with
    | none => rw [hf] at h; exact absurd h (by simp)
    | some rd =>
      rw [hf] at h
      cases hm : mapDocs f rest with
      | none => rw [hm] at h; exact absurd h (by simp)
      | some rs =>
        rw [hm] at h
        simp at h
        subst h
        rcases List.mem_cons.mp hr with hh | ht
        · exact ⟨d, List.mem_cons_self d rest, by rw [hf, hh]⟩
        · obtain ⟨x, hx, hfx⟩ := ih rs hm r ht
          exact ⟨x, List.mem_cons_of_mem d hx, hfx⟩

/-- Every source document of a successful `mapDocs` run lands in the
result. -/
theorem mapDocs_mem_of_mem_src (f : Doc → Option Doc) (l : Store) (out : List Doc)
    (h : mapDocs f l = some out) : ∀ x ∈ l, ∃ r ∈ out, f x = some r := by
  induction l generalizing out with
  | nil =>
    intro x hx
    exact absurd hx (by simp)
  | cons d rest ih =>
    intro x hx
    unfold mapDocs at h
    cases hf : f d with
    | none => rw [hf] at h; exact absurd h (by simp)
    | some rd =>
      rw [hf] at h
      cases hm : mapDocs f rest with
      | none => rw [hm] at h; exact absurd h (by simp)
      | some rs =>
        rw [hm] at h
        simp at h
        subst h
        rcases List.mem_cons.mp hx with hh | ht
        · exact ⟨rd, List.mem_cons_self rd rs, by rw [hh, hf]⟩
        · obtain ⟨r, hr, hfx⟩ := ih rs hm x ht
          exact ⟨r, List.mem_cons_of_mem rd hr, hfx⟩

/-- Characterisation of a successful `pendTransform`. -/
theorem pendTransform_eq (user r : Doc) (h : pendTransform user = some r) :
    ∃ v, getField user "_id" = some v ∧
      r = delField (setField user "id" (.vStr (pyStr v))) "_id" := by
  unfold pendTransform at h
  cases hv : getField user "_id" with
  | none => rw [hv] at h; exact absurd h (by simp)
  | some v =>
    rw [hv] at h
    simp at h
    exact ⟨v, rfl, h.symm⟩

/-- The `update_one` of `approve_user` skips a prefix of documents whose
`_id` is not the requested ObjectId. -/
theorem updateStatusApproved_append (oid : String) (pre rest : Store) :
    (∀ d ∈ pre, ¬ getField d "_id" = some (.vOid oid)) →
    updateStatusApproved oid (pre ++ rest) =
      ((updateStatusApproved oid rest).1, pre ++ (updateStatusApproved oid rest).2) := by
  induction pre with
  | nil =>
    intro _
    simp
  | cons d pre ih =>
    intro hpre
    have hd : ¬ getField d "_id" = some (.vOid oid) := hpre d (by simp)
    have ih2 := ih (fun d2 hd2 => hpre d2 (by simp [hd2]))
    simp [updateStatusApproved, hd, ih2]

/-- `update_one` on a collection with no matching document is the
identity. -/
theorem updateFirstMatch_no_match (p : Doc → Bool) (f : Doc → Doc) (l : Store) :
    (∀ d ∈ l, p d = false) → updateFirstMatch p f l = l := by
  induction l with
  | nil => intro _; rfl
  | cons d rest ih =>
    intro h
    simp [updateFirstMatch, h d (by simp), ih (fun d2 hd2 => h d2 (by simp [hd2]))]

/-- `delete_one` on a collection with no matching document deletes nothing
and keeps the collection intact. -/
theorem deleteFirstMatch_no_match (p : Doc → Bool) (l : Store) :
    (∀ d ∈ l, p d = false) → deleteFirstMatch p l = (0, l) := by
  induction l with
  | nil => intro _; rfl
  | cons d rest ih =>
    intro h
    simp [deleteFirstMatch, h d (by simp), ih (fun d2 hd2 => h d2 (by simp [hd2]))]

/-- The default substitutions performed by the `GET /tree` projection: each
`user.get(field, default)` yields the written default exactly when the field
is absent, and always yields some value. -/
theorem treeProject_defaults (user r : Doc) (h : treeProject user = some r) :
    (getField user "gender" = none → getField r "gender" = some (.vStr "N/A")) ∧
    (getField user "memberType" = none →
      getField r "memberType" = some (.vStr "Blood_Relative")) ∧
    (getField user "jobType" = none → getField r "jobType" = some (.vStr "N/A")) ∧
    (getField user "jobDetails" = none → getField r "jobDetails" = some (.vStr "N/A")) ∧
    (getField user "talent" = none → getField r "talent" = some (.vStr "N/A")) ∧
    (getField user "subFamily" = none → getField r "subFamily" = some (.vStr "")) ∧
    (getField r "gender").isSome ∧ (getField r "memberType").isSome ∧
    (getField r "jobType").isSome ∧ (getField r "jobDetails").isSome ∧
    (getField r "talent").isSome ∧ (getField r "subFamily").isSome := by
  unfold treeProject at h
  cases h1 : getField user "_id" with
  | none => rw [h1] at h; exact absurd h (by simp)
  | some idv =>
  rw [h1] at h
  cases h2 : getField user "name" with
  | none => rw [h2] at h; exact absurd h (by simp)
  | some namev =>
  rw [h2] at h
  cases h3 : getField user "photo" with
  | none => rw [h3] at h; exact absurd h (by simp)
  | some photov =>
  rw [h3] at h
  cases h4 : getField user "mainFamily" with
  | none => rw [h4] at h; exact absurd h (by simp)
  | some mainFamilyv =>
  rw [h4] at h
  cases h5 : getField user "parent" with
  | none => rw [h5] at h; exact absurd h (by simp)
  | some parentv =>
  rw [h5] at h
  simp only [Option.some.injEq] at h
  subst h
  refine ⟨fun hg => by simp [getField, hg], fun hg => by simp [getField, hg],
          fun hg => by simp [getField, hg], fun hg => by simp [getField, hg],
          fun hg => by simp [getField, hg], fun hg => by simp [getField, hg],
          ?_, ?_, ?_, ?_, ?_, ?_⟩ <;> simp [getField]

/-! ### The claims -/

/-- Claim C1: the claim states that approve/reject on a well-formed
identifier with no matching document signal Not Found (404), and on a
malformed identifier signal Invalid Identifier (400).  The code violates the
first half: the `HTTPException(404, "User not found")` is raised inside the
`try` block, so the blanket `except Exception` converts it into
`400 "Invalid ID"`.  This theorem evaluates both handlers at a well-formed
24-hex identifier matching nothing (getting the 400, never a 404) and at a
malformed identifier (the half of the claim that does hold). -/
theorem approve_reject_unmatched_id_gives_400 :
    approve_user "aaaaaaaaaaaaaaaaaaaaaaaa"
        [[("_id", BVal.vOid "bbbbbbbbbbbbbbbbbbbbbbbb"), ("status", BVal.vStr "Pending")]] =
      (.httpError 400 "Invalid ID",
       [[("_id", BVal.vOid "bbbbbbbbbbbbbbbbbbbbbbbb"), ("status", BVal.vStr "Pending")]]) ∧
    reject_user "aaaaaaaaaaaaaaaaaaaaaaaa"
        [[("_id", BVal.vOid "bbbbbbbbbbbbbbbbbbbbbbbb"), ("status", BVal.vStr "Pending")]] =
      (.httpError 400 "Invalid ID",
       [[("_id", BVal.vOid "bbbbbbbbbbbbbbbbbbbbbbbb"), ("status", BVal.vStr "Pending")]]) ∧
    approve_user "not-an-objectid" [] = (.httpError 400 "Invalid ID", []) ∧
    reject_user "not-an-objectid" [] = (.httpError 400 "Invalid ID", []) := by
  decide

/-- Claim C3: registering with a phone number already present in the member
store fails with the duplicate-phone client error, whatever the other form
fields, the photo, the upload outcome and the generated id, and the store is
left unchanged. -/
theorem register_duplicate_phone_conflict (f : RegisterForm) (photo : Option UploadFileT)
    (upload : UploadOutcome) (freshId : String) (st : Store) (d : Doc)
    (hd : d ∈ st) (hphone : getField d "phone" = some (.vStr f.phone)) :
    register_user f photo upload freshId st = (.httpError 400 "Phone already registered", st) := by
  have hfind : (st.find? (fun d2 => decide (getField d2 "phone" = some (.vStr f.phone)))).isSome := by
    rw [List.find?_isSome]
    exact ⟨d, hd, by simp [hphone]⟩
  simp [register_user, hfind]

/-- Witness for C3 at a concrete duplicate registration. -/
theorem register_duplicate_phone_conflict_witness :
    register_user
      ⟨"A", "M", "Blood_Relative", "9990001111", "pw", "mf", "sf", "par", "pin", "addr",
       "jt", "jd", "tal"⟩
      none .fail "0123456789abcdef01234567" [[("phone", BVal.vStr "9990001111")]] =
      (.httpError 400 "Phone already registered", [[("phone", BVal.vStr "9990001111")]]) :=
  register_duplicate_phone_conflict _ none .fail "0123456789abcdef01234567"
    _ [("phone", BVal.vStr "9990001111")] (by simp) (by decide)

/-- Claim C5: when the phone is fresh (so the handler reaches the upload), a
present photo with a non-empty filename whose Cloudinary upload raises makes
the handler answer the 500 server error and leaves the member store
untouched. -/
theorem register_upload_failure_aborts (f : RegisterForm) (ph : UploadFileT)
    (freshId : String) (st : Store)
    (hfresh : ∀ d ∈ st, ¬ getField d "phone" = some (.vStr f.phone))
    (hfn : ¬ ph.filename = "") :
    register_user f (some ph) .fail freshId st = (.httpError 500 "Image upload failed", st) := by
  have hfind : st.find? (fun d2 => decide (getField d2 "phone" = some (.vStr f.phone))) = none := by
    rw [List.find?_eq_none]
    intro x hx
    simpa using hfresh x hx
  simp [register_user, hfind, hfn]

/-- Witness for C5 at a concrete failing upload. -/
theorem register_upload_failure_aborts_witness :
    register_user
      ⟨"A", "M", "Blood_Relative", "9990001111", "pw", "mf", "sf", "par", "pin", "addr",
       "jt", "jd", "tal"⟩
      (some ⟨"a.jpg"⟩) .fail "0123456789abcdef01234567" [] =
      (.httpError 500 "Image upload failed", []) :=
  register_upload_failure_aborts _ ⟨"a.jpg"⟩ "0123456789abcdef01234567" []
    (by simp) (by decide)

/-- Claim C9: the event update and event delete on an identifier matching no
event document return their generic success messages and leave the event
store completely unchanged. -/
theorem event_unmatched_id_noop (eid : String) (e : EventModel) (events : Store)
    (h : ∀ d ∈ events, ¬ getField d "id" = some (.vStr eid)) :
    update_event eid e events = (.ok "Event updated successfully", events) ∧
    delete_event eid events = (.ok "Event deleted successfully", events) := by
  have hp : ∀ d ∈ events, eventIdMatches eid d = false := by
    intro d hd
    simpa [eventIdMatches] using h d hd
  constructor
  · simp [update_event, updateFirstMatch_no_match _ _ _ hp]
  · simp [delete_event, deleteFirstMatch_no_match _ _ hp]

/-- Witness for C9 at a concrete store holding one unrelated event. -/
theorem event_unmatched_id_noop_witness :
    update_event "e2" ⟨"t", "d", "2025-01-01", "loc", "url", ""⟩
        [[("id", BVal.vStr "e1")]] =
      (.ok "Event updated successfully", [[("id", BVal.vStr "e1")]]) ∧
    delete_event "e2" [[("id", BVal.vStr "e1")]] =
      (.ok "Event deleted successfully", [[("id", BVal.vStr "e1")]]) :=
  event_unmatched_id_noop "e2" ⟨"t", "d", "2025-01-01", "loc", "url", ""⟩
    [[("id", BVal.vStr "e1")]] (by decide)

/-- Claim C4: registering with a fresh phone succeeds with the documented
message; with no photo the single inserted record carries the placeholder
URL, status `Pending` and `isAdmin = false`; with a photo whose upload
returns a URL, the inserted record carries that URL. -/
theorem register_fresh_phone_success (f : RegisterForm) (freshId : String) (st : Store)
    (upload : UploadOutcome) (ph : UploadFileT) (url : String)
    (hfresh : ∀ d ∈ st, ¬ getField d "phone" = some (.vStr f.phone))
    (hfn : ¬ ph.filename = "") :
    ((register_user f none upload freshId st).1 = .ok "Registration Request Sent!" ∧
     (register_user f none upload freshId st).2 =
        st ++ [newUserDoc f placeholderUrl freshId] ∧
     getField (newUserDoc f placeholderUrl freshId) "photo" = some (.vStr placeholderUrl) ∧
     getField (newUserDoc f placeholderUrl freshId) "status" = some (.vStr "Pending") ∧
     getField (newUserDoc f placeholderUrl freshId) "isAdmin" = some (.vBool false)) ∧
    ((register_user f (some ph) (.done url) freshId st).1 = .ok "Registration Request Sent!" ∧
     (register_user f (some ph) (.done url) freshId st).2 = st ++ [newUserDoc f url freshId] ∧
     getField (newUserDoc f url freshId) "photo" = some (.vStr url) ∧
     getField (newUserDoc f url freshId) "status" = some (.vStr "Pending") ∧
     getField (newUserDoc f url freshId) "isAdmin" = some (.vBool false)) := by
  have hfind : st.find? (fun d2 => decide (getField d2 "phone" = some (.vStr f.phone))) = none := by
    rw [List.find?_eq_none]
    intro x hx
    simpa using hfresh x hx
  refine ⟨⟨?_, ?_, ?_, ?_, ?_⟩, ⟨?_, ?_, ?_, ?_, ?_⟩⟩ <;>
    simp [register_user, hfind, hfn, newUserDoc, getField]

/-- Witness for C4: the end-to-end example of the spec (phone `9990001111`,
no photo) and a registration with a successfully uploaded photo. -/
theorem register_fresh_phone_success_witness :
    ((register_user
        ⟨"A", "M", "Blood_Relative", "9990001111", "pw", "mf", "sf", "par", "pin", "addr",
         "jt", "jd", "tal"⟩
        none .fail "0123456789abcdef01234567" []).1 = .ok "Registration Request Sent!" ∧
     (register_user
        ⟨"A", "M", "Blood_Relative", "9990001111", "pw", "mf", "sf", "par", "pin", "addr",
         "jt", "jd", "tal"⟩
        none .fail "0123456789abcdef01234567" []).2 =
        [] ++ [newUserDoc
          ⟨"A", "M", "Blood_Relative", "9990001111", "pw", "mf", "sf", "par", "pin", "addr",
           "jt", "jd", "tal"⟩ placeholderUrl "0123456789abcdef01234567"] ∧
     getField (newUserDoc
          ⟨"A", "M", "Blood_Relative", "9990001111", "pw", "mf", "sf", "par", "pin", "addr",
           "jt", "jd", "tal"⟩ placeholderUrl "0123456789abcdef01234567") "photo" =
        some (.vStr placeholderUrl) ∧
     getField (newUserDoc
          ⟨"A", "M", "Blood_Relative", "9990001111", "pw", "mf", "sf", "par", "pin", "addr",
           "jt", "jd", "tal"⟩ placeholderUrl "0123456789abcdef01234567") "status" =
        some (.vStr "Pending") ∧
     getField (newUserDoc
          ⟨"A", "M", "Blood_Relative", "9990001111", "pw", "mf", "sf", "par", "pin", "addr",
           "jt", "jd", "tal"⟩ placeholderUrl "0123456789abcdef01234567") "isAdmin" =
        some (.vBool false)) ∧
    ((register_user
        ⟨"A", "M", "Blood_Relative", "9990001111", "pw", "mf", "sf", "par", "pin", "addr",
         "jt", "jd", "tal"⟩
        (some ⟨"a.jpg"⟩) (.done "https://res.example/x.png") "0123456789abcdef01234567" []).1 =
        .ok "Registration Request Sent!" ∧
     (register_user
        ⟨"A", "M", "Blood_Relative", "9990001111", "pw", "mf", "sf", "par", "pin", "addr",
         "jt", "jd", "tal"⟩
        (some ⟨"a.jpg"⟩) (.done "https://res.example/x.png") "0123456789abcdef01234567" []).2 =
        [] ++ [newUserDoc
          ⟨"A", "M", "Blood_Relative", "9990001111", "pw", "mf", "sf", "par", "pin", "addr",
           "jt", "jd", "tal"⟩ "https://res.example/x.png" "0123456789abcdef01234567"] ∧
     getField (newUserDoc
          ⟨"A", "M", "Blood_Relative", "9990001111", "pw", "mf", "sf", "par", "pin", "addr",
           "jt", "jd", "tal"⟩ "https://res.example/x.png" "0123456789abcdef01234567") "photo" =
        some (.vStr "https://res.example/x.png") ∧
     getField (newUserDoc
          ⟨"A", "M", "Blood_Relative", "9990001111", "pw", "mf", "sf", "par", "pin", "addr",
           "jt", "jd", "tal"⟩ "https://res.example/x.png" "0123456789abcdef01234567") "status" =
        some (.vStr "Pending") ∧
     getField (newUserDoc
          ⟨"A", "M", "Blood_Relative", "9990001111", "pw", "mf", "sf", "par", "pin", "addr",
           "jt", "jd", "tal"⟩ "https://res.example/x.png" "0123456789abcdef01234567") "isAdmin" =
        some (.vBool false)) :=
  register_fresh_phone_success
    ⟨"A", "M", "Blood_Relative", "9990001111", "pw", "mf", "sf", "par", "pin", "addr",
     "jt", "jd", "tal"⟩
    "0123456789abcdef01234567" [] .fail ⟨"a.jpg"⟩ "https://res.example/x.png"
    (by simp) (by decide)

/-- Claim C7: the admin login succeeds exactly when the username is the
hardcoded constant and the password equals the effective stored password
(the settings document value when present, the hardcoded default when
absent); the stored settings never change the accepted username, and a
mismatch yields the 401. -/
theorem login_admin_credentials (u p : String) (settings : Store) :
    (login u p settings = .ok "Login successful" ↔
      u = adminUsername ∧ BVal.vStr p = storedAdminPassword settings) ∧
    (∀ doc, findAdminSettings settings = some doc →
      storedAdminPassword settings = (getField doc "password").getD (.vStr defaultAdminPassword)) ∧
    (findAdminSettings settings = none →
      storedAdminPassword settings = .vStr defaultAdminPassword) ∧
    (¬ (u = adminUsername ∧ BVal.vStr p = storedAdminPassword settings) →
      login u p settings = .httpError 401 "Invalid username or password") := by
  refine ⟨?_, ?_, ?_, ?_⟩
  · by_cases hc : u = adminUsername ∧ BVal.vStr p = storedAdminPassword settings
    · simp [login, hc]
    · simp [login, hc]
  · intro doc hdoc
    simp [storedAdminPassword, hdoc]
  · intro hnone
    simp [storedAdminPassword, hnone]
  · intro hc
    simp [login, hc]

/-- Witness for C7: the default credentials pass on an empty settings store,
a wrong username is rejected. -/
theorem login_admin_credentials_witness :
    login "KTMTFAMILY WEBSITE" "KTMTPASSWORD" [] = .ok "Login successful" ∧
    login "guest" "KTMTPASSWORD" [] = .httpError 401 "Invalid username or password" :=
  ⟨(login_admin_credentials "KTMTFAMILY WEBSITE" "KTMTPASSWORD" []).1.mpr (by decide),
   (login_admin_credentials "guest" "KTMTPASSWORD" []).2.2.2 (by decide)⟩

/-- After the change-password upsert, the settings document found by the
login lookup holds the new password. -/
theorem findAdminSettings_upsert (p : String) (settings : Store) :
    ∃ doc, findAdminSettings (upsertAdminPassword p settings) = some doc ∧
      getField doc "password" = some (.vStr p) := by
  induction settings with
  | nil =>
    refine ⟨[("type", .vStr "admin_credentials"), ("password", .vStr p)], ?_, by simp [getField]⟩
    simp [upsertAdminPassword, findAdminSettings, List.find?, getField]
  | cons d rest ih =>
    by_cases hd : getField d "type" = some (.vStr "admin_credentials")
    · refine ⟨setField (setField d "password" (.vStr p)) "type" (.vStr "admin_credentials"),
        ?_, ?_⟩
      · unfold findAdminSettings
        rw [upsertAdminPassword, if_pos hd, List.find?_cons_of_pos]
        simp [getField_setField_self]
      · rw [getField_setField_ne _ _ _ _ (by decide)]
        exact getField_setField_self _ _ _
    · obtain ⟨doc, hfind, hpw⟩ := ih
      refine ⟨doc, ?_, hpw⟩
      unfold findAdminSettings at hfind ⊢
      rw [upsertAdminPassword, if_neg hd, List.find?_cons_of_neg _ (by simp [hd])]
      exact hfind

/-- Claim C8: the password change unconditionally stores the new password in
the single settings document (inserting it when absent), and a subsequent
login with the hardcoded username and the new password succeeds — for every
prior settings state, so the most recent change wins. -/
theorem change_password_then_login (p : String) (settings : Store) :
    (∃ doc, findAdminSettings ((change_password p settings).2) = some doc ∧
        getField doc "password" = some (.vStr p)) ∧
    storedAdminPassword ((change_password p settings).2) = .vStr p ∧
    login adminUsername p ((change_password p settings).2) = .ok "Login successful" ∧
    (change_password p settings).1 = .ok "Password updated successfully" := by
  obtain ⟨doc, hfind, hpw⟩ := findAdminSettings_upsert p settings
  have hstored : storedAdminPassword (upsertAdminPassword p settings) = .vStr p := by
    simp [storedAdminPassword, hfind, hpw]
  refine ⟨⟨doc, ?_, hpw⟩, ?_, ?_, rfl⟩
  · simpa [change_password] using hfind
  · simpa [change_password] using hstored
  · simp [change_password, login, hstored]

/-- Claim C2: a successful `/tree` read returns exactly the projections of
the documents whose status is `Approved` (one output record per approved
document, every output record from an approved document), and the projection
substitutes the documented defaults for absent fields, so those fields are
always present in the output. -/
theorem get_tree_approved_only_with_defaults (st : Store) (out : List Doc)
    (h : get_tree st = some out) :
    (∀ r ∈ out, ∃ d ∈ st, getField d "status" = some (.vStr "Approved") ∧
        treeProject d = some r) ∧
    (∀ d ∈ st, getField d "status" = some (.vStr "Approved") →
        ∃ r ∈ out, treeProject d = some r) ∧
    (∀ d r, treeProject d = some r →
      (getField d "gender" = none → getField r "gender" = some (.vStr "N/A")) ∧
      (getField d "memberType" = none →
        getField r "memberType" = some (.vStr "Blood_Relative")) ∧
      (getField d "jobType" = none → getField r "jobType" = some (.vStr "N/A")) ∧
      (getField d "jobDetails" = none → getField r "jobDetails" = some (.vStr "N/A")) ∧
      (getField d "talent" = none → getField r "talent" = some (.vStr "N/A")) ∧
      (getField d "subFamily" = none → getField r "subFamily" = some (.vStr "")) ∧
      (getField r "gender").isSome ∧ (getField r "memberType").isSome ∧
      (getField r "jobType").isSome ∧ (getField r "jobDetails").isSome ∧
      (getField r "talent").isSome ∧ (getField r "subFamily").isSome) := by
  unfold get_tree at h
  refine ⟨?_, ?_, fun d r hdr => treeProject_defaults d r hdr⟩
  · intro r hr
    obtain ⟨x, hx, hfx⟩ := mapDocs_mem_of_mem_result _ _ _ h r hr
    rw [List.mem_filter] at hx
    exact ⟨x, hx.1, by simpa using hx.2, hfx⟩
  · intro d hd hstatus
    exact mapDocs_mem_of_mem_src _ _ _ h d (List.mem_filter.mpr ⟨hd, by simp [hstatus]⟩)

/-- Witness for C2: an approved legacy document with none of the defaulted
fields gets them all substituted in the tree output. -/
theorem get_tree_approved_only_with_defaults_witness :
    getField
      [("_id", BVal.vStr "aaaaaaaaaaaaaaaaaaaaaaaa"), ("name", BVal.vStr "Ann"),
       ("gender", BVal.vStr "N/A"), ("memberType", BVal.vStr "Blood_Relative"),
       ("photo", BVal.vStr "p"), ("phone", BVal.vStr ""), ("mainFamily", BVal.vStr "m"),
       ("subFamily", BVal.vStr ""), ("parent", BVal.vStr "q"), ("jobType", BVal.vStr "N/A"),
       ("jobDetails", BVal.vStr "N/A"), ("talent", BVal.vStr "N/A")] "gender" =
      some (BVal.vStr "N/A") ∧
    getField
      [("_id", BVal.vStr "aaaaaaaaaaaaaaaaaaaaaaaa"), ("name", BVal.vStr "Ann"),
       ("gender", BVal.vStr "N/A"), ("memberType", BVal.vStr "Blood_Relative"),
       ("photo", BVal.vStr "p"), ("phone", BVal.vStr ""), ("mainFamily", BVal.vStr "m"),
       ("subFamily", BVal.vStr ""), ("parent", BVal.vStr "q"), ("jobType", BVal.vStr "N/A"),
       ("jobDetails", BVal.vStr "N/A"), ("talent", BVal.vStr "N/A")] "subFamily" =
      some (BVal.vStr "") := by
  have h := get_tree_approved_only_with_defaults
    [[("_id", BVal.vOid "aaaaaaaaaaaaaaaaaaaaaaaa"), ("name", BVal.vStr "Ann"),
      ("photo", BVal.vStr "p"), ("mainFamily", BVal.vStr "m"), ("parent", BVal.vStr "q"),
      ("status", BVal.vStr "Approved")]]
    [[("_id", BVal.vStr "aaaaaaaaaaaaaaaaaaaaaaaa"), ("name", BVal.vStr "Ann"),
      ("gender", BVal.vStr "N/A"), ("memberType", BVal.vStr "Blood_Relative"),
      ("photo", BVal.vStr "p"), ("phone", BVal.vStr ""), ("mainFamily", BVal.vStr "m"),
      ("subFamily", BVal.vStr ""), ("parent", BVal.vStr "q"), ("jobType", BVal.vStr "N/A"),
      ("jobDetails", BVal.vStr "N/A"), ("talent", BVal.vStr "N/A")]]
    (by decide)
  have h3 := h.2.2
    [("_id", BVal.vOid "aaaaaaaaaaaaaaaaaaaaaaaa"), ("name", BVal.vStr "Ann"),
     ("photo", BVal.vStr "p"), ("mainFamily", BVal.vStr "m"), ("parent", BVal.vStr "q"),
     ("status", BVal.vStr "Approved")]
    [("_id", BVal.vStr "aaaaaaaaaaaaaaaaaaaaaaaa"), ("name", BVal.vStr "Ann"),
     ("gender", BVal.vStr "N/A"), ("memberType", BVal.vStr "Blood_Relative"),
     ("photo", BVal.vStr "p"), ("phone", BVal.vStr ""), ("mainFamily", BVal.vStr "m"),
     ("subFamily", BVal.vStr ""), ("parent", BVal.vStr "q"), ("jobType", BVal.vStr "N/A"),
     ("jobDetails", BVal.vStr "N/A"), ("talent", BVal.vStr "N/A")]
    (by decide)
  exact ⟨h3.1 (by decide), h3.2.2.2.2.2.1 (by decide)⟩

/-- Claim C10: a successful `/admin/pending` read returns exactly the
documents whose status is `Pending`; each output record keeps every stored
field (the plaintext password included) unredacted, except that `_id` is
removed and the string field `id` holds its rendering. -/
theorem get_pending_full_fields (st : Store) (out : List Doc)
    (h : get_pending st = some out) :
    (∀ r ∈ out, ∃ d ∈ st, getField d "status" = some (.vStr "Pending") ∧
        pendTransform d = some r) ∧
    (∀ d ∈ st, getField d "status" = some (.vStr "Pending") →
        ∃ r ∈ out, pendTransform d = some r) ∧
    (∀ d r, pendTransform d = some r →
      (∀ k, ¬ k = "_id" → ¬ k = "id" → getField r k = getField d k) ∧
      getField r "_id" = none ∧
      (∀ v, getField d "_id" = some v → getField r "id" = some (.vStr (pyStr v)))) := by
  unfold get_pending at h
  refine ⟨?_, ?_, ?_⟩
  · intro r hr
    obtain ⟨x, hx, hfx⟩ := mapDocs_mem_of_mem_result _ _ _ h r hr
    rw [List.mem_filter] at hx
    exact ⟨x, hx.1, by simpa using hx.2, hfx⟩
  · intro d hd hstatus
    exact mapDocs_mem_of_mem_src _ _ _ h d (List.mem_filter.mpr ⟨hd, by simp [hstatus]⟩)
  · intro d r hdr
    obtain ⟨v, hv, hr⟩ := pendTransform_eq d r hdr
    subst hr
    refine ⟨?_, getField_delField_self _ _, ?_⟩
    · intro k hk1 hk2
      rw [getField_delField_ne _ _ _ (fun hh => hk1 hh.symm),
          getField_setField_ne _ _ _ _ (fun hh => hk2 hh.symm)]
    · intro v2 hv2
      rw [hv] at hv2
      have hvv : v = v2 := Option.some.inj hv2
      subst hvv
      rw [getField_delField_ne _ _ _ (by decide), getField_setField_self]

/-- Witness for C10: the password field survives into the pending listing,
`_id` is stripped and `id` carries its string form. -/
theorem get_pending_full_fields_witness :
    getField
      [("phone", BVal.vStr "999"), ("password", BVal.vStr "secret"),
       ("status", BVal.vStr "Pending"), ("id", BVal.vStr "aaaaaaaaaaaaaaaaaaaaaaaa")]
      "password" =
      getField
        [("_id", BVal.vOid "aaaaaaaaaaaaaaaaaaaaaaaa"), ("phone", BVal.vStr "999"),
         ("password", BVal.vStr "secret"), ("status", BVal.vStr "Pending")] "password" ∧
    getField
      [("phone", BVal.vStr "999"), ("password", BVal.vStr "secret"),
       ("status", BVal.vStr "Pending"), ("id", BVal.vStr "aaaaaaaaaaaaaaaaaaaaaaaa")]
      "_id" = none ∧
    getField
      [("phone", BVal.vStr "999"), ("password", BVal.vStr "secret"),
       ("status", BVal.vStr "Pending"), ("id", BVal.vStr "aaaaaaaaaaaaaaaaaaaaaaaa")]
      "id" = some (BVal.vStr "aaaaaaaaaaaaaaaaaaaaaaaa") := by
  have h := get_pending_full_fields
    [[("_id", BVal.vOid "aaaaaaaaaaaaaaaaaaaaaaaa"), ("phone", BVal.vStr "999"),
      ("password", BVal.vStr "secret"), ("status", BVal.vStr "Pending")]]
    [[("phone", BVal.vStr "999"), ("password", BVal.vStr "secret"),
      ("status", BVal.vStr "Pending"), ("id", BVal.vStr "aaaaaaaaaaaaaaaaaaaaaaaa")]]
    (by decide)
  have h3 := h.2.2
    [("_id", BVal.vOid "aaaaaaaaaaaaaaaaaaaaaaaa"), ("phone", BVal.vStr "999"),
     ("password", BVal.vStr "secret"), ("status", BVal.vStr "Pending")]
    [("phone", BVal.vStr "999"), ("password", BVal.vStr "secret"),
     ("status", BVal.vStr "Pending"), ("id", BVal.vStr "aaaaaaaaaaaaaaaaaaaaaaaa")]
    (by decide)
  exact ⟨h3.1 "password" (by decide) (by decide), h3.2.1,
    h3.2.2 (BVal.vOid "aaaaaaaaaaaaaaaaaaaaaaaa") (by decide)⟩

/-- Claim C6: approving a pending document by its identifier (unique in the
store) succeeds, flips its status to `Approved`, after which the document
appears in a successful `/tree` read and its identifier no longer appears
in a successful `/admin/pending` read. -/
theorem approve_pending_record (s oid : String) (pre post : Store) (d : Doc)
    (hparse : parseObjectId s = some oid)
    (hpre : ∀ d2 ∈ pre, ∀ v, getField d2 "_id" = some v → ¬ pyStr v = oid)
    (hpost : ∀ d2 ∈ post, ∀ v, getField d2 "_id" = some v → ¬ pyStr v = oid)
    (hid : getField d "_id" = some (.vOid oid))
    (hstatus : getField d "status" = some (.vStr "Pending")) :
    approve_user s (pre ++ d :: post) =
      (.ok "User Approved", pre ++ setField d "status" (.vStr "Approved") :: post) ∧
    getField (setField d "status" (.vStr "Approved")) "status" = some (.vStr "Approved") ∧
    (∀ out, get_tree (pre ++ setField d "status" (.vStr "Approved") :: post) = some out →
      ∃ r ∈ out, treeProject (setField d "status" (.vStr "Approved")) = some r) ∧
    (∀ pout, get_pending (pre ++ setField d "status" (.vStr "Approved") :: post) = some pout →
      ∀ r ∈ pout, ¬ getField r "id" = some (.vStr oid)) := by
  have hpre2 : ∀ dd ∈ pre, ¬ getField dd "_id" = some (.vOid oid) := by
    intro dd hdd hcon
    exact hpre dd hdd _ hcon rfl
  have hne : ¬ setField d "status" (.vStr "Approved") = d := by
    intro he
    have hcg := congrArg (fun doc => getField doc "status") he
    simp only [getField_setField_self, hstatus] at hcg
    exact absurd (BVal.vStr.inj (Option.some.inj hcg)) (by decide)
  have hhead : updateStatusApproved oid (d :: post) =
      (1, setField d "status" (.vStr "Approved") :: post) := by
    simp [updateStatusApproved, hid, hne]
  have hcomp : updateStatusApproved oid (pre ++ d :: post) =
      (1, pre ++ setField d "status" (.vStr "Approved") :: post) := by
    rw [updateStatusApproved_append oid pre (d :: post) hpre2, hhead]
  refine ⟨?_, getField_setField_self _ _ _, ?_, ?_⟩
  · simp [approve_user, hparse, hcomp]
  · intro out hout
    unfold get_tree at hout
    exact mapDocs_mem_of_mem_src _ _ _ hout _
      (List.mem_filter.mpr ⟨by simp, by simp [getField_setField_self]⟩)
  · intro pout hpout r hr hcon
    unfold get_pending at hpout
    obtain ⟨x, hx, hfx⟩ := mapDocs_mem_of_mem_result _ _ _ hpout r hr
    rw [List.mem_filter] at hx
    have hxpending : getField x "status" = some (.vStr "Pending") := by simpa using hx.2
    obtain ⟨v, hv, hreq⟩ := pendTransform_eq x r hfx
    have hrid : getField r "id" = some (.vStr (pyStr v)) := by
      subst hreq
      rw [getField_delField_ne _ _ _ (by decide), getField_setField_self]
    rw [hrid] at hcon
    have hpv : pyStr v = oid := by simpa using hcon
    rcases List.mem_append.mp hx.1 with hxpre | hxrest
    · exact hpre x hxpre v hv hpv
    · rcases List.mem_cons.mp hxrest with hxd | hxpost
      · rw [hxd, getField_setField_self] at hxpending
        exact absurd (BVal.vStr.inj (Option.some.inj hxpending)) (by decide)
      · exact hpost x hxpost v hv hpv

/-- Witness for C6: a concrete pending document is approved by its
identifier. -/
theorem approve_pending_record_witness :
    approve_user "0123456789abcdef01234567"
      [[("_id", BVal.vOid "0123456789abcdef01234567"), ("name", BVal.vStr "Ann"),
        ("photo", BVal.vStr "p"), ("mainFamily", BVal.vStr "m"), ("parent", BVal.vStr "q"),
        ("status", BVal.vStr "Pending")]] =
      (.ok "User Approved",
       [[("_id", BVal.vOid "0123456789abcdef01234567"), ("name", BVal.vStr "Ann"),
         ("photo", BVal.vStr "p"), ("mainFamily", BVal.vStr "m"), ("parent", BVal.vStr "q"),
         ("status", BVal.vStr "Approved")]]) :=
  (approve_pending_record "0123456789abcdef01234567" "0123456789abcdef01234567" [] []
    [("_id", BVal.vOid "0123456789abcdef01234567"), ("name", BVal.vStr "Ann"),
     ("photo", BVal.vStr "p"), ("mainFamily", BVal.vStr "m"), ("parent", BVal.vStr "q"),
     ("status", BVal.vStr "Pending")]
    (by decide) (by simp) (by simp) (by decide) (by decide)).1

end FamilyTree
